import Mathlib

/-!
Shallow embedding of the ingestion data plane (`src/data_manager.rs`) and the
state-machine command set (`src/state/store/requests.rs`) of the indexify
repository, together with theorems settling the frozen claims about it.

External collaborators (blob store, coordinator RPC, vector index, metadata
index) are modelled as injected functions / result parameters; the embedding
records the requests issued to them as an explicit event trace.
-/

namespace Indexify

/-! ## 64-bit hashing: Rust `DefaultHasher` (SipHash-1-3, keys (0,0))

`write_content` derives the content id with `std::collections::hash_map::DefaultHasher`,
which is SipHash-1-3 keyed with (0, 0).  All arithmetic is on `Nat` reduced
modulo `2 ^ 64`; rotations are expressed with `*`, `/` and `%` (the two parts
of a rotation are bit-disjoint, so `+` is the bitwise or). -/

def two64 : Nat := 2 ^ 64

def add64 (a b : Nat) : Nat := (a + b) % two64

def rotl64 (x r : Nat) : Nat := x * 2 ^ r % two64 + x / 2 ^ (64 - r)

structure SipState where
  v0 : Nat
  v1 : Nat
  v2 : Nat
  v3 : Nat
  deriving Repr

def sipRound (st : SipState) : SipState :=
  let v0 := add64 st.v0 st.v1
  let v1 := rotl64 st.v1 13
  let v1 := v1 ^^^ v0
  let v0 := rotl64 v0 32
  let v2 := add64 st.v2 st.v3
  let v3 := rotl64 st.v3 16
  let v3 := v3 ^^^ v2
  let v0 := add64 v0 v3
  let v3 := rotl64 v3 21
  let v3 := v3 ^^^ v0
  let v2 := add64 v2 v1
  let v1 := rotl64 v1 17
  let v1 := v1 ^^^ v2
  let v2 := rotl64 v2 32
  ⟨v0, v1, v2, v3⟩

/-- One SipHash-1-3 compression step (c = 1 round) for message word `m`. -/
def sipCompress (st : SipState) (m : Nat) : SipState :=
  let st := { st with v3 := st.v3 ^^^ m }
  let st := sipRound st
  { st with v0 := st.v0 ^^^ m }

/-- Little-endian word from at most eight bytes. -/
def leWord (bs : List Nat) : Nat := bs.foldr (fun b acc => b + 256 * acc) 0

/-- Consume full eight-byte blocks of the message; return the state and the tail. -/
def sipBlocks : SipState → List Nat → SipState × List Nat
  | st, b0 :: b1 :: b2 :: b3 :: b4 :: b5 :: b6 :: b7 :: rest =>
      sipBlocks (sipCompress st (leWord [b0, b1, b2, b3, b4, b5, b6, b7])) rest
  | st, tail => (st, tail)

def sipDigest (k0 k1 : Nat) (msg : List Nat) : Nat :=
  let st : SipState :=
    ⟨0x736f6d6570736575 ^^^ k0, 0x646f72616e646f6d ^^^ k1,
     0x6c7967656e657261 ^^^ k0, 0x7465646279746573 ^^^ k1⟩
  let (st, tail) := sipBlocks st msg
  let b := (msg.length % 256) * 2 ^ 56 % two64 + leWord tail
  let st := sipCompress st b
  let st := { st with v2 := st.v2 ^^^ 0xff }
  let st := sipRound (sipRound (sipRound st))
  st.v0 ^^^ st.v1 ^^^ st.v2 ^^^ st.v3

/-- SipHash-1-3 with a 64-bit digest. -/
def sipHash13 (k0 k1 : Nat) (msg : List Nat) : Nat :=
  sipDigest k0 k1 msg % two64

/-- UTF-8 encoding of one character, as byte values. -/
def charUtf8 (c : Char) : List Nat :=
  let n := c.toNat
  if n < 0x80 then [n]
  else if n < 0x800 then [0xc0 + n / 64, 0x80 + n % 64]
  else if n < 0x10000 then [0xe0 + n / 4096, 0x80 + n / 64 % 64, 0x80 + n % 64]
  else [0xf0 + n / 262144, 0x80 + n / 4096 % 64, 0x80 + n / 64 % 64, 0x80 + n % 64]

/-- UTF-8 bytes of a string (what Rust hashes for `str`). -/
def strBytes (s : String) : List Nat := s.data.foldr (fun c acc => charUtf8 c ++ acc) []

/-- Rust `Hash for str` feeds the UTF-8 bytes followed by a `0xff` terminator byte. -/
def strHashBytes (s : String) : List Nat := strBytes s ++ [0xff]

/-- The byte stream hashed in `write_content`: namespace, then file name, then
the parent id when present (each via Rust's `Hash for str`). -/
def contentIdHashInput (ns fname : String) (parentId : Option String) : List Nat :=
  strHashBytes ns ++ strHashBytes fname ++
    (match parentId with
     | some p => strHashBytes p
     | none => [])

/-- Numeric 64-bit content id: `DefaultHasher` digest over the hash input. -/
def contentIdNat (ns fname : String) (parentId : Option String) : Nat :=
  sipHash13 0 0 (contentIdHashInput ns fname parentId)

/-- Lowercase hexadecimal rendering, as Rust's format specifier for `u64` values. -/
def toHexString (n : Nat) : String := (Nat.toDigits 16 n).asString

/-- The content id as stored: hexadecimal digest string. -/
def contentId (ns fname : String) (parentId : Option String) : String :=
  toHexString (contentIdNat ns fname parentId)

/-! ## Data model of the ingestion data plane (`api` / proto types as used by
`data_manager.rs`).  JSON label values are modelled as strings (the code
stringifies them); `f32` embedding values are modelled as integers (no claim
depends on the numeric payload). -/

inductive FeatureType where
  | embedding
  | metadata
  | unknown
  deriving DecidableEq, Repr

/-- Payload of a feature (`serde_json::Value` in the source).  A payload parses
as an `internal_api::Embedding` exactly when it is the `embedding` form. -/
inductive FeatureData where
  | embedding (values : List Int)
  | other (payload : String)
  deriving DecidableEq, Repr

structure Feature where
  feature_type : FeatureType
  name : String
  data : FeatureData
  deriving DecidableEq, Repr

structure Content where
  content_type : String
  bytes : List Nat
  labels : List (String × String)
  features : List Feature
  deriving DecidableEq, Repr

/-- `indexify_coordinator::ContentMetadata` exactly as constructed by
`write_content` (lines 350-361 of `data_manager.rs`). -/
structure ContentMetadata where
  id : String
  file_name : String
  storage_url : String
  parent_id : String
  created_at : Int
  mime : String
  ns : String
  labels : List (String × String)
  source : String
  size_bytes : Nat
  deriving DecidableEq, Repr

/-- `internal_api::ExtractedEmbeddings` as built in `write_extracted_content`. -/
structure ExtractedEmbeddings where
  content_id : String
  embedding : List Int
  deriving DecidableEq, Repr

/-- Modelled from the spec: `metadata_storage::ExtractedMetadata` is not under
`src/`; §4.5 gives the inserted row as
`content_id, parent_id, extractor, policy, data_json, namespace`, matching the
argument order of `ExtractedMetadata::new` at the call site. -/
structure ExtractedMetadata where
  content_id : String
  parent_id : String
  data : FeatureData
  extractor_name : String
  extraction_policy : String
  ns : String
  deriving DecidableEq, Repr

inductive TaskOutcome where
  | unknown
  | failure
  | success
  deriving DecidableEq, Repr

/-- Proto enum value of a task outcome (`outcome as i32`). -/
def taskOutcomeCode : TaskOutcome → Int
  | .unknown => 0
  | .failure => 1
  | .success => 2

/-- Modelled from the spec: `api::BeginExtractedContentIngest` is not under
`src/`; §4.2 lists its fields. -/
structure BeginExtractedContentIngest where
  ns : String
  parent_content_id : String
  extraction_policy : String
  task_id : String
  executor_id : String
  output_to_index_table_mapping : List (String × String)
  task_outcome : TaskOutcome
  deriving DecidableEq, Repr

structure ExtractedContent where
  content_list : List Content
  deriving DecidableEq, Repr

/-- `indexify_coordinator::UpdateTaskRequest` as built in
`finish_extracted_content_write`. -/
structure UpdateTaskRequest where
  executor_id : String
  task_id : String
  outcome : Int
  content_list : List ContentMetadata
  deriving DecidableEq, Repr

/-! ## Event traces

Each call to an external collaborator is recorded as one event, in issue
order: blob-store `put`, vector-index `add_embedding`, metadata-index
`add_metadata`, coordinator `create_content`. -/

inductive Event where
  | blobPut (key : String) (bytes : List Nat)
  | addEmbedding (table : String) (embeddings : List ExtractedEmbeddings)
  | addMetadata (ns : String) (meta : ExtractedMetadata)
  | createContent (meta : ContentMetadata)
  deriving DecidableEq, Repr

inductive EventKind where
  | blobPutK
  | addEmbeddingK
  | addMetadataK
  | createContentK
  deriving DecidableEq, Repr

def Event.kind : Event → EventKind
  | .blobPut _ _ => .blobPutK
  | .addEmbedding _ _ => .addEmbeddingK
  | .addMetadata _ _ => .addMetadataK
  | .createContent _ => .createContentK

/-- Keys passed to the blob store in a trace. -/
def blobKeys (trace : List Event) : List String :=
  trace.filterMap
    (fun e =>
      match e with
      | .blobPut k _ => some k
      | _ => none)

/-- Ids of the contents registered via `CreateContent` in a trace. -/
def createdIds (trace : List Event) : List String :=
  trace.filterMap
    (fun e =>
      match e with
      | .createContent m => some m.id
      | _ => none)

/-- Metadata rows inserted in a trace. -/
def metadataRows (trace : List Event) : List ExtractedMetadata :=
  trace.filterMap
    (fun e =>
      match e with
      | .addMetadata _ m => some m
      | _ => none)

/-! ## `write_content` and the user-facing ingest paths

Nondeterministic inputs of the source are explicit parameters: `putUrl` is the
blob store's `put` (returning the opaque `storage_url`), `nonce` the value
`nanoid!()` would draw, `ts` the wall-clock seconds.  External calls are
modelled as succeeding; the trace records the requests issued. -/

/-- `DataManager::write_content` (data_manager.rs lines 320-362): derive the
file name (caller-provided or nonce), hash `(namespace, file_name, parent_id?)`
into the id, write the bytes to the blob store under the file name, and build
the `ContentMetadata`. -/
def writeContent (putUrl : String → List Nat → String) (nonce : String) (ts : Nat)
    (ns : String) (content : Content) (fileName : Option String)
    (parentId : Option String) (source : String) (sizeBytes : Nat) :
    ContentMetadata × Event :=
  let file_name := fileName.getD nonce
  let id := contentId ns file_name parentId
  let storage_url := putUrl file_name content.bytes
  (⟨id, file_name, storage_url, parentId.getD "", (ts : Int), content.content_type,
    ns, content.labels, source, sizeBytes⟩,
   Event.blobPut file_name content.bytes)

/-- `DataManager::add_texts` (lines 230-253): per text, `write_content` with no
file name and no parent, source `"ingestion"`, then one `CreateContent` each.
`nonces i` is the nonce drawn for the i-th text. -/
def addTexts (putUrl : String → List Nat → String) (nonces : Nat → String) (ts : Nat)
    (ns : String) : List Content → Nat → List Event
  | [], _ => []
  | c :: rest, i =>
    let (meta, blobEv) :=
      writeContent putUrl (nonces i) ts ns c none none "ingestion" c.bytes.length
    blobEv :: Event.createContent meta :: addTexts putUrl nonces ts ns rest (i + 1)

/-- Character-list split on a separator (total, keeps empty groups). -/
def splitOnChar (sep : Char) : List Char → List (List Char)
  | [] => [[]]
  | c :: rest =>
    let r := splitOnChar sep rest
    if c = sep then [] :: r
    else
      match r with
      | g :: gs => (c :: g) :: gs
      | [] => [[c]]

/-- `Path::new(name).extension()` for ordinary file names: the part of the last
`/`-component after its last `.`; `none` when there is no dot or when the only
dot leads a hidden file. -/
def rustExtension (name : String) : Option String :=
  let comp := (splitOnChar '/' name.data).getLastD []
  let parts := splitOnChar '.' comp
  match parts with
  | [] => none
  | [_] => none
  | first :: rest =>
    if first = [] ∧ rest.length = 1 then none
    else some (parts.getLastD []).asString

/-- Modelled from the `mime_guess` crate (external): representative extension
table; `first_or_octet_stream` falls back to `application/octet-stream` for an
absent or unknown extension. -/
def mimeTable : List (String × String) :=
  [("txt", "text/plain"), ("json", "application/json"), ("pdf", "application/pdf"),
   ("html", "text/html"), ("png", "image/png"), ("csv", "text/csv")]

def mimeFromExt (ext : String) : String :=
  (mimeTable.lookup ext).getD "application/octet-stream"

/-- `DataManager::upload_file` (lines 277-318): guess the MIME type from the
name's extension, wrap the bytes in a `Content` with empty labels and features,
`write_content` with the caller's name, no parent and source `"ingestion"`,
then one `CreateContent`. -/
def uploadFile (putUrl : String → List Nat → String) (nonce : String) (ts : Nat)
    (ns : String) (data : List Nat) (name : String) :
    ContentMetadata × List Event :=
  let ext := (rustExtension name).getD ""
  let content_mime := mimeFromExt ext
  let content : Content := ⟨content_mime, data, [], []⟩
  let (meta, blobEv) :=
    writeContent putUrl nonce ts ns content (some name) none "ingestion" data.length
  (meta, [blobEv, Event.createContent meta])

/-! ## `write_extracted_content` (lines 383-471)

Per child: `write_content` with no file name, parent `parent_content_id`,
source `extraction_policy`.  For each feature the index table name is looked
up in `output_to_index_table_mapping` first; a feature whose name does not
resolve is skipped entirely (`unwrap_or_continue!`).  `Embedding` features are
parsed (a parse failure aborts the whole call with `?`) and buffered per table
in this child's `new_embeddings` map; `Metadata` features are inserted into the
metadata index immediately; other feature types are ignored.  The buffered
embeddings are flushed at the end of each child's iteration.  After the child
loop, one `CreateContent` is issued per child. -/

/-- `new_embeddings.entry(table).or_default().push(e)`: the per-child embedding
buffer as an association list in first-insertion order. -/
def pushEmb (acc : List (String × List ExtractedEmbeddings)) (table : String)
    (e : ExtractedEmbeddings) : List (String × List ExtractedEmbeddings) :=
  match acc with
  | [] => [(table, [e])]
  | (t, es) :: rest =>
    if t = table then (t, es ++ [e]) :: rest else (t, es) :: pushEmb rest table e

/-- `serde_json::from_value::<internal_api::Embedding>` on a feature payload. -/
def parseEmbedding : FeatureData → Option (List Int)
  | .embedding values => some values
  | .other _ => none

/-- The feature loop of `write_extracted_content` for one child. Returns the
embedding buffer, the metadata-insert events in issue order, and the error of
the first failing embedding parse, which aborts the loop. -/
def processFeatures (mapping : List (String × String)) (policy ns : String)
    (meta : ContentMetadata) :
    List Feature → List (String × List ExtractedEmbeddings) →
    List (String × List ExtractedEmbeddings) × List Event × Option String
  | [], acc => (acc, [], none)
  | f :: rest, acc =>
    match mapping.lookup f.name with
    | none => processFeatures mapping policy ns meta rest acc
    | some table =>
      match f.feature_type with
      | .embedding =>
        match parseEmbedding f.data with
        | none => (acc, [], some "unable to get embedding from extracted data")
        | some values =>
          processFeatures mapping policy ns meta rest
            (pushEmb acc table ⟨meta.id, values⟩)
      | .metadata =>
        ((processFeatures mapping policy ns meta rest acc).1,
         Event.addMetadata ns
             ⟨meta.id, meta.parent_id, f.data, "extractor_name", policy, ns⟩
           :: (processFeatures mapping policy ns meta rest acc).2.1,
         (processFeatures mapping policy ns meta rest acc).2.2)
      | .unknown => processFeatures mapping policy ns meta rest acc

/-- One iteration of the child loop: blob write, feature loop, then — only when
no feature failed — the flush of this child's embedding buffer, one
`add_embedding` per table. -/
def processChild (putUrl : String → List Nat → String) (nonce : String) (ts : Nat)
    (im : BeginExtractedContentIngest) (content : Content) :
    List Event × ContentMetadata × Option String :=
  let wc :=
    writeContent putUrl nonce ts im.ns content none (some im.parent_content_id)
      im.extraction_policy content.bytes.length
  let r :=
    processFeatures im.output_to_index_table_mapping im.extraction_policy im.ns wc.1
      content.features []
  match r.2.2 with
  | some e => (wc.2 :: r.2.1, wc.1, some e)
  | none =>
    (wc.2 :: r.2.1 ++ r.1.map (fun te => Event.addEmbedding te.1 te.2), wc.1, none)

/-- The child loop: children in input order, each fully processed (including
its embedding flush) before the next; an error stops the loop. -/
def processChildren (putUrl : String → List Nat → String) (nonces : Nat → String)
    (ts : Nat) (im : BeginExtractedContentIngest) :
    List Content → Nat → List Event × List ContentMetadata × Option String
  | [], _ => ([], [], none)
  | c :: rest, i =>
    let r := processChild putUrl (nonces i) ts im c
    match r.2.2 with
    | some e => (r.1, [r.2.1], some e)
    | none =>
      (r.1 ++ (processChildren putUrl nonces ts im rest (i + 1)).1,
       r.2.1 :: (processChildren putUrl nonces ts im rest (i + 1)).2.1,
       (processChildren putUrl nonces ts im rest (i + 1)).2.2)

/-- `DataManager::write_extracted_content`: the child loop, then — on success —
one `CreateContent` per child, in input order.  Returns the trace of issued
requests and the error, when one aborted the call. -/
def writeExtractedContent (putUrl : String → List Nat → String)
    (nonces : Nat → String) (ts : Nat) (im : BeginExtractedContentIngest)
    (ec : ExtractedContent) : List Event × Option String :=
  let r := processChildren putUrl nonces ts im ec.content_list 0
  match r.2.2 with
  | some e => (r.1, some e)
  | none => (r.1 ++ r.2.1.map Event.createContent, none)

/-! ## `finish_extracted_content_write` (lines 364-381)

The request is built with the task outcome and `content_list: Vec::new()`.
`clientResult` models `coordinator_client.get().await?` (its error propagates);
`updateResult` models the `update_task` RPC, whose error is only logged: the
function returns `Ok(())` regardless.  The second component is the request
sent, when one was. -/

def finishExtractedContentWrite (im : BeginExtractedContentIngest)
    (clientResult : Except String Unit) (_updateResult : Except String Unit) :
    Except String Unit × Option UpdateTaskRequest :=
  let req : UpdateTaskRequest :=
    { executor_id := im.executor_id
      task_id := im.task_id
      outcome := taskOutcomeCode im.task_outcome
      content_list := [] }
  match clientResult with
  | .error e => (.error e, none)
  | .ok _ => (.ok (), some req)

/-! ## State-machine command set (`src/state/store/requests.rs`)

The field types come from the `indexify_internal_api` crate and the `state`
module, which are part of the repository but not under `src/`; they are
modelled from the spec's data model (§3).  Rust maps and sets are modelled as
association lists / lists. -/

abbrev NodeId := Nat
abbrev ExecutorId := String
abbrev TaskId := String

/-- Modelled from the spec: §3 Extractor output schema, a tagged union
`Embedding(dim, distance)` or `Attributes(json-schema)`. -/
inductive OutputSchema where
  | embedding (dim : Nat) (distance : String)
  | attributes (json_schema : String)
  deriving DecidableEq, Repr

/-- Modelled from the spec: §3 Extractor. -/
structure ExtractorDescription where
  name : String
  input_mime_types : List String
  input_params_schema : String
  outputs : List (String × OutputSchema)
  deriving DecidableEq, Repr

/-- Modelled from the spec: the structured-data schema is carried opaquely and
merged additively (§4.1); modelled as named, typed columns. -/
structure StructuredDataSchema where
  columns : List (String × String)
  deriving DecidableEq, Repr

/-- Modelled from the spec: §3 Task. -/
structure Task where
  id : String
  ns : String
  content_id : String
  policy_id : String
  extractor : String
  input_params : String
  outcome : TaskOutcome
  executor_id : Option String
  created_at : Nat
  deriving DecidableEq, Repr

/-- Modelled from the spec: §3 GarbageCollectionTask. -/
structure GarbageCollectionTask where
  id : String
  content_id : String
  storage_url : String
  index_tables : List String
  finished : Bool
  deriving DecidableEq, Repr

/-- Modelled from the spec: §3 ExtractionPolicy. -/
structure ExtractionPolicy where
  id : String
  name : String
  extractor : String
  input_params : String
  filters : List (String × String)
  content_source : String
  output_index_name_mapping : List (String × String)
  deriving DecidableEq, Repr

/-- Modelled from the spec: §3 ExtractionGraph, a named namespace-scoped graph
whose policies travel beside it in `CreateExtractionGraph`. -/
structure ExtractionGraph where
  name : String
  ns : String
  deriving DecidableEq, Repr

/-- Modelled from the spec: §3 ContentMetadata as the state machine owns it
(`indexify_internal_api::ContentMetadata`). -/
structure InternalContentMetadata where
  id : String
  ns : String
  file_name : String
  storage_url : String
  parent_id : String
  mime : String
  labels : List (String × String)
  source : String
  size_bytes : Nat
  created_at : Nat
  extraction_policy_ids_applied : List String
  tombstoned : Bool
  deriving DecidableEq, Repr

/-- Modelled from the spec: §4.1 `SetContentExtractionPolicyMappings` records
which policies must still run for a given content. -/
structure ContentExtractionPolicyMapping where
  content_id : String
  extraction_policy_ids : List String
  deriving DecidableEq, Repr

/-- Modelled from the spec: §3 Index. -/
structure Index where
  name : String
  table_name : String
  ns : String
  schema : String
  policy_id : String
  extractor : String
  deriving DecidableEq, Repr

inductive ChangeType where
  | newContent
  | newExtractionPolicy
  | executorAdded
  | executorRemoved
  | taskCompleted
  | tombstonedContent
  deriving DecidableEq, Repr

/-- Modelled from the spec: §3 StateChange. -/
structure StateChange where
  id : String
  object_id : String
  change_type : ChangeType
  created_at : Nat
  processed_at : Option Nat
  deriving DecidableEq, Repr

structure StateChangeProcessed where
  state_change_id : String
  processed_at : Nat
  deriving DecidableEq, Repr

/-- `RequestPayload` of `src/state/store/requests.rs`, variants in source
order.  `SystemTime` is modelled as seconds; `HashMap` / `HashSet` as lists. -/
inductive RequestPayload where
  | JoinCluster (node_id : NodeId) (address : String) (coordinator_addr : String)
  | RegisterExecutor (addr : String) (executor_id : String)
      (extractor : ExtractorDescription) (ts_secs : Nat)
  | RemoveExecutor (executor_id : String)
  | CreateNamespace (name : String) (structured_data_schema : StructuredDataSchema)
  | CreateTasks (tasks : List Task)
  | AssignTask (assignments : List (TaskId × ExecutorId))
  | CreateOrAssignGarbageCollectionTask (gc_tasks : List GarbageCollectionTask)
  | UpdateGarbageCollectionTask (gc_task : GarbageCollectionTask) (mark_finished : Bool)
  | CreateExtractionGraph (extraction_graph : ExtractionGraph)
      (extraction_policies : List ExtractionPolicy)
      (structured_data_schema : StructuredDataSchema)
  | CreateContent (content_metadata : List InternalContentMetadata)
  | TombstoneContent (ns : String) (content_ids : List String)
  | RemoveTombstonedContent (content_id : String)
  | CreateExtractionPolicy (extraction_policy : ExtractionPolicy)
      (updated_structured_data_schema : Option StructuredDataSchema)
      (new_structured_data_schema : StructuredDataSchema)
  | SetContentExtractionPolicyMappings
      (content_extraction_policy_mappings : List ContentExtractionPolicyMapping)
  | MarkExtractionPolicyAppliedOnContent (content_id : String)
      (extraction_policy_id : String) (policy_completion_time : Nat)
  | CreateIndex (index : Index) (ns : String) (id : String)
  | UpdateTask (task : Task) (mark_finished : Bool) (executor_id : Option String)
      (content_metadata : List InternalContentMetadata)
  | MarkStateChangesProcessed (state_changes : List StateChangeProcessed)

/-- `StateMachineUpdateRequest` of `requests.rs`. -/
structure StateMachineUpdateRequest where
  payload : RequestPayload
  new_state_changes : List StateChange
  state_changes_processed : List StateChangeProcessed

/-- The spec's command set (§4.1), written as the spec lists it: same eighteen
commands, with the spec's field names (`graph`, `policies`, `policy_id`,
`completion_time`, `updated_schema?`, `new_schema`, ...). -/
inductive SpecCommand where
  | JoinCluster (node_id : NodeId) (address : String) (coordinator_addr : String)
  | RegisterExecutor (addr : String) (executor_id : String)
      (extractor : ExtractorDescription) (ts_secs : Nat)
  | RemoveExecutor (executor_id : String)
  | CreateNamespace (name : String) (structured_data_schema : StructuredDataSchema)
  | CreateExtractionGraph (graph : ExtractionGraph) (policies : List ExtractionPolicy)
      (structured_data_schema : StructuredDataSchema)
  | CreateExtractionPolicy (policy : ExtractionPolicy)
      (updated_schema : Option StructuredDataSchema) (new_schema : StructuredDataSchema)
  | CreateIndex (index : Index) (ns : String) (id : String)
  | CreateContent (content_metadata : List InternalContentMetadata)
  | SetContentExtractionPolicyMappings
      (mappings : List ContentExtractionPolicyMapping)
  | MarkExtractionPolicyAppliedOnContent (content_id : String) (policy_id : String)
      (completion_time : Nat)
  | CreateTasks (tasks : List Task)
  | AssignTask (assignments : List (TaskId × ExecutorId))
  | UpdateTask (task : Task) (mark_finished : Bool) (executor_id : Option String)
      (content_metadata : List InternalContentMetadata)
  | TombstoneContent (ns : String) (content_ids : List String)
  | CreateOrAssignGarbageCollectionTask (gc_tasks : List GarbageCollectionTask)
  | UpdateGarbageCollectionTask (gc_task : GarbageCollectionTask) (mark_finished : Bool)
  | RemoveTombstonedContent (content_id : String)
  | MarkStateChangesProcessed (state_changes : List StateChangeProcessed)

/-- Spec-side command name. -/
def SpecCommand.cmdName : SpecCommand → String
  | .JoinCluster .. => "JoinCluster"
  | .RegisterExecutor .. => "RegisterExecutor"
  | .RemoveExecutor .. => "RemoveExecutor"
  | .CreateNamespace .. => "CreateNamespace"
  | .CreateExtractionGraph .. => "CreateExtractionGraph"
  | .CreateExtractionPolicy .. => "CreateExtractionPolicy"
  | .CreateIndex .. => "CreateIndex"
  | .CreateContent .. => "CreateContent"
  | .SetContentExtractionPolicyMappings .. => "SetContentExtractionPolicyMappings"
  | .MarkExtractionPolicyAppliedOnContent .. => "MarkExtractionPolicyAppliedOnContent"
  | .CreateTasks .. => "CreateTasks"
  | .AssignTask .. => "AssignTask"
  | .UpdateTask .. => "UpdateTask"
  | .TombstoneContent .. => "TombstoneContent"
  | .CreateOrAssignGarbageCollectionTask .. => "CreateOrAssignGarbageCollectionTask"
  | .UpdateGarbageCollectionTask .. => "UpdateGarbageCollectionTask"
  | .RemoveTombstonedContent .. => "RemoveTombstonedContent"
  | .MarkStateChangesProcessed .. => "MarkStateChangesProcessed"

/-- The eighteen command names, in the order of the spec's §4.1 listing. -/
def specCommandNames : List String :=
  ["JoinCluster", "RegisterExecutor", "RemoveExecutor", "CreateNamespace",
   "CreateExtractionGraph", "CreateExtractionPolicy", "CreateIndex",
   "CreateContent", "SetContentExtractionPolicyMappings",
   "MarkExtractionPolicyAppliedOnContent", "CreateTasks", "AssignTask",
   "UpdateTask", "TombstoneContent", "CreateOrAssignGarbageCollectionTask",
   "UpdateGarbageCollectionTask", "RemoveTombstonedContent",
   "MarkStateChangesProcessed"]

/-- Field-for-field reading of a source command as a spec command. -/
def specOfRequest : RequestPayload → SpecCommand
  | .JoinCluster a b c => .JoinCluster a b c
  | .RegisterExecutor a b c d => .RegisterExecutor a b c d
  | .RemoveExecutor a => .RemoveExecutor a
  | .CreateNamespace a b => .CreateNamespace a b
  | .CreateTasks a => .CreateTasks a
  | .AssignTask a => .AssignTask a
  | .CreateOrAssignGarbageCollectionTask a => .CreateOrAssignGarbageCollectionTask a
  | .UpdateGarbageCollectionTask a b => .UpdateGarbageCollectionTask a b
  | .CreateExtractionGraph a b c => .CreateExtractionGraph a b c
  | .CreateContent a => .CreateContent a
  | .TombstoneContent a b => .TombstoneContent a b
  | .RemoveTombstonedContent a => .RemoveTombstonedContent a
  | .CreateExtractionPolicy a b c => .CreateExtractionPolicy a b c
  | .SetContentExtractionPolicyMappings a => .SetContentExtractionPolicyMappings a
  | .MarkExtractionPolicyAppliedOnContent a b c =>
      .MarkExtractionPolicyAppliedOnContent a b c
  | .CreateIndex a b c => .CreateIndex a b c
  | .UpdateTask a b c d => .UpdateTask a b c d
  | .MarkStateChangesProcessed a => .MarkStateChangesProcessed a

/-! ## Derived descriptions used by the theorems -/

/-- Modelled from the `nanoid` crate (external): `nanoid!()` draws
`nanoidSize = 21` symbols uniformly from the 64-symbol URL-safe alphabet. -/
def nanoidAlphabet : List Char :=
  "_-0123456789abcdefghijklmnopqrstuvwxyzABCDEFGHIJKLMNOPQRSTUVWXYZ".data

def nanoidSize : Nat := 21

/-- Number of distinct values `nanoid!()` can produce. -/
def nanoidSpace : Nat := nanoidAlphabet.length ^ nanoidSize

/-- The metadata rows the (amended) spec predicts for one child's feature
list: one row per `Metadata` feature whose name resolves in the mapping,
carrying the child's content id and parent id. -/
def expectedMetadataRows (mapping : List (String × String)) (policy ns : String)
    (meta : ContentMetadata) (fs : List Feature) : List ExtractedMetadata :=
  fs.foldr
    (fun f acc =>
      match mapping.lookup f.name, f.feature_type with
      | some _, .metadata =>
          ⟨meta.id, meta.parent_id, f.data, "extractor_name", policy, ns⟩ :: acc
      | _, _ => acc) []

/-- Concatenation of event blocks. -/
def flattenEvents (ls : List (List Event)) : List Event :=
  ls.foldr (fun a b => a ++ b) []

/-- The per-child event blocks of the child loop, in input order. -/
def perChildTraces (putUrl : String → List Nat → String) (nonces : Nat → String)
    (ts : Nat) (im : BeginExtractedContentIngest) :
    List Content → Nat → List (List Event)
  | [], _ => []
  | c :: rest, i =>
    (processChild putUrl (nonces i) ts im c).1
      :: perChildTraces putUrl nonces ts im rest (i + 1)

/-! ## Concrete fixtures for counterexamples and witnesses -/

def put0 : String → List Nat → String := fun key _ => "blob://" ++ key

def nonceIdx : Nat → String := fun i => "nonce-" ++ toString i

def nonceA : Nat → String := fun _ => "aaaaaaaaaaaaaaaaaaaaa"

def nonceB : Nat → String := fun _ => "baaaaaaaaaaaaaaaaaaaa"

def im0 : BeginExtractedContentIngest :=
  ⟨"ns1", "p", "policy1", "task1", "exec1", [("emb", "tableT")], .success⟩

/-- `im0` with an empty output-to-index-table mapping. -/
def imNoMap : BeginExtractedContentIngest :=
  { im0 with output_to_index_table_mapping := [] }

/-- `im0` with both an embedding output and a metadata output mapped. -/
def imMapped : BeginExtractedContentIngest :=
  { im0 with output_to_index_table_mapping := [("emb", "tableT"), ("m", "tableM")] }

def childPlain : Content := ⟨"text/plain", [104, 105], [], []⟩

def childMeta : Content := ⟨"text/plain", [104], [], [⟨.metadata, "m", .other "row"⟩]⟩

/-- A child with one mapped and one unmapped metadata feature. -/
def childTwoMeta : Content :=
  ⟨"text/plain", [104], [],
   [⟨.metadata, "m", .other "row1"⟩, ⟨.metadata, "zz", .other "row2"⟩]⟩

def childEmb : Content := ⟨"text/plain", [104], [], [⟨.embedding, "emb", .embedding [1, 2]⟩]⟩

def ecPlain : ExtractedContent := ⟨[childPlain]⟩

def ecMeta : ExtractedContent := ⟨[childMeta]⟩

def ecTwoMeta : ExtractedContent := ⟨[childTwoMeta]⟩

def ecTwoEmb : ExtractedContent := ⟨[childEmb, childEmb]⟩

/-- Field-for-field reading of a spec command as a source command. -/
def requestOfSpec : SpecCommand → RequestPayload
  | .JoinCluster a b c => .JoinCluster a b c
  | .RegisterExecutor a b c d => .RegisterExecutor a b c d
  | .RemoveExecutor a => .RemoveExecutor a
  | .CreateNamespace a b => .CreateNamespace a b
  | .CreateExtractionGraph a b c => .CreateExtractionGraph a b c
  | .CreateExtractionPolicy a b c => .CreateExtractionPolicy a b c
  | .CreateIndex a b c => .CreateIndex a b c
  | .CreateContent a => .CreateContent a
  | .SetContentExtractionPolicyMappings a => .SetContentExtractionPolicyMappings a
  | .MarkExtractionPolicyAppliedOnContent a b c =>
      .MarkExtractionPolicyAppliedOnContent a b c
  | .CreateTasks a => .CreateTasks a
  | .AssignTask a => .AssignTask a
  | .UpdateTask a b c d => .UpdateTask a b c d
  | .TombstoneContent a b => .TombstoneContent a b
  | .CreateOrAssignGarbageCollectionTask a => .CreateOrAssignGarbageCollectionTask a
  | .UpdateGarbageCollectionTask a b => .UpdateGarbageCollectionTask a b
  | .RemoveTombstonedContent a => .RemoveTombstonedContent a
  | .MarkStateChangesProcessed a => .MarkStateChangesProcessed a

/-! ## Helper lemmas about the extracted-content pipeline -/

theorem metadataRows_append (a b : List Event) :
    metadataRows (a ++ b) = metadataRows a ++ metadataRows b := by
  simp [metadataRows]

theorem metadataRows_cons_meta (ns : String) (m : ExtractedMetadata) (l : List Event) :
    metadataRows (Event.addMetadata ns m :: l) = m :: metadataRows l := rfl

theorem metadataRows_cons_blob (k : String) (b : List Nat) (l : List Event) :
    metadataRows (Event.blobPut k b :: l) = metadataRows l := rfl

/-- The event of `write_content` is the blob `put` under the file name. -/
theorem writeContent_event (putUrl : String → List Nat → String) (nonce : String)
    (ts : Nat) (ns : String) (c : Content) (fn pid : Option String) (src : String)
    (sz : Nat) :
    (writeContent putUrl nonce ts ns c fn pid src sz).2
      = Event.blobPut ((writeContent putUrl nonce ts ns c fn pid src sz).1.file_name)
          c.bytes := rfl

/-- Unfolding of `expectedMetadataRows` at a cons cell. -/
theorem expectedMetadataRows_cons (mapping : List (String × String))
    (policy ns : String) (meta : ContentMetadata) (f : Feature) (fs : List Feature) :
    expectedMetadataRows mapping policy ns meta (f :: fs)
      = (match mapping.lookup f.name, f.feature_type with
         | some _, .metadata =>
             (⟨meta.id, meta.parent_id, f.data, "extractor_name", policy, ns⟩ :
               ExtractedMetadata) :: expectedMetadataRows mapping policy ns meta fs
         | _, _ => expectedMetadataRows mapping policy ns meta fs) := rfl

/-- Every event emitted by the feature loop is a metadata insert. -/
theorem processFeatures_events_meta (mapping : List (String × String))
    (policy ns : String) (meta : ContentMetadata) :
    ∀ (fs : List Feature) (acc : List (String × List ExtractedEmbeddings)),
      ∀ e ∈ (processFeatures mapping policy ns meta fs acc).2.1,
        Event.kind e = EventKind.addMetadataK := by
  intro fs
  induction fs with
  | nil => intro acc e he; simp [processFeatures] at he
  | cons f rest ih =>
    intro acc e he
    simp only [processFeatures] at he
    split at he
    · exact ih acc e he
    · split at he
      · split at he
        · simp at he
        · exact ih _ e he
      · rcases List.mem_cons.mp he with h | h
        · subst h; rfl
        · exact ih acc e h
      · exact ih acc e he

/-- On a successful feature loop, the inserted rows are exactly one row per
`Metadata` feature whose name resolves in the mapping. -/
theorem processFeatures_rows (mapping : List (String × String))
    (policy ns : String) (meta : ContentMetadata) :
    ∀ (fs : List Feature) (acc : List (String × List ExtractedEmbeddings)),
      (processFeatures mapping policy ns meta fs acc).2.2 = none →
      metadataRows (processFeatures mapping policy ns meta fs acc).2.1
        = expectedMetadataRows mapping policy ns meta fs := by
  intro fs
  induction fs with
  | nil =>
    intro acc _
    simp [processFeatures, expectedMetadataRows, metadataRows]
  | cons f rest ih =>
    intro acc h
    rw [expectedMetadataRows_cons]
    simp only [processFeatures] at h ⊢
    cases hl : mapping.lookup f.name with
    | none =>
      simp only [hl] at h ⊢
      exact ih acc h
    | some table =>
      simp only [hl] at h ⊢
      cases hty : f.feature_type with
      | embedding =>
        simp only [hty] at h ⊢
        cases hp : parseEmbedding f.data with
        | none =>
          simp only [hp] at h
          exact Option.noConfusion h
        | some values =>
          simp only [hp] at h ⊢
          exact ih _ h
      | metadata =>
        simp only [hty] at h ⊢
        rw [metadataRows_cons_meta, ih acc h]
      | unknown =>
        simp only [hty] at h ⊢
        exact ih acc h

/-- The child loop for one child never issues a `CreateContent`. -/
theorem processChild_no_create (putUrl : String → List Nat → String) (nonce : String)
    (ts : Nat) (im : BeginExtractedContentIngest) (c : Content) :
    ∀ e ∈ (processChild putUrl nonce ts im c).1,
      Event.kind e ≠ EventKind.createContentK := by
  intro e he
  simp only [processChild] at he
  split at he
  · rcases List.mem_cons.mp he with h | h
    · subst h; simp [writeContent, Event.kind]
    · rw [processFeatures_events_meta _ _ _ _ _ _ e h]; simp
  · rcases List.mem_cons.mp he with h | h
    · subst h; simp [writeContent, Event.kind]
    · rcases List.mem_append.mp h with h2 | h2
      · rw [processFeatures_events_meta _ _ _ _ _ _ e h2]; simp
      · rcases List.mem_map.mp h2 with ⟨te, _, hte⟩
        subst hte; simp [Event.kind]

/-- On success, the child loop's trace is the concatenation of the per-child
blocks in input order, and there is one metadata record per child. -/
theorem processChildren_success (putUrl : String → List Nat → String)
    (nonces : Nat → String) (ts : Nat) (im : BeginExtractedContentIngest) :
    ∀ (cs : List Content) (i : Nat),
      (processChildren putUrl nonces ts im cs i).2.2 = none →
      (processChildren putUrl nonces ts im cs i).1
          = flattenEvents (perChildTraces putUrl nonces ts im cs i)
        ∧ (processChildren putUrl nonces ts im cs i).2.1.length = cs.length := by
  intro cs
  induction cs with
  | nil => intro i _; simp [processChildren, perChildTraces, flattenEvents]
  | cons c rest ih =>
    intro i h
    simp only [processChildren] at h ⊢
    cases herr : (processChild putUrl (nonces i) ts im c).2.2 with
    | some e =>
      simp only [herr] at h
      exact Option.noConfusion h
    | none =>
      simp only [herr] at h ⊢
      obtain ⟨h1, h2⟩ := ih (i + 1) h
      constructor
      · rw [h1]
        simp [perChildTraces, flattenEvents]
      · simp [h2]

/-- No per-child block contains a `CreateContent` event. -/
theorem perChildTraces_no_create (putUrl : String → List Nat → String)
    (nonces : Nat → String) (ts : Nat) (im : BeginExtractedContentIngest) :
    ∀ (cs : List Content) (i : Nat),
      ∀ e ∈ flattenEvents (perChildTraces putUrl nonces ts im cs i),
        Event.kind e ≠ EventKind.createContentK := by
  intro cs
  induction cs with
  | nil => intro i e he; simp [perChildTraces, flattenEvents] at he
  | cons c rest ih =>
    intro i e he
    simp only [perChildTraces, flattenEvents, List.foldr_cons] at he
    rcases List.mem_append.mp he with h | h
    · exact processChild_no_create putUrl (nonces i) ts im c e h
    · exact ih (i + 1) e h

/-! ## The claims -/

/-- C1: for every `write_content` call with an explicitly provided file name,
the content id is a pure function of `(namespace, file_name, parent_id)`: it
equals the hexadecimal rendering of the 64-bit `DefaultHasher` digest of the
ordered tuple, independent of the nonce, the timestamp, the blob store, the
content and the other arguments, so two invocations agreeing on the tuple
produce equal ids. -/
theorem claim_C1_content_id_pure :
    ∀ (putUrl : String → List Nat → String) (nonce : String) (ts : Nat)
      (c : Content) (ns fname : String) (pid : Option String) (src : String)
      (sz : Nat),
      (writeContent putUrl nonce ts ns c (some fname) pid src sz).1.id
          = toHexString (contentIdNat ns fname pid)
        ∧ contentIdNat ns fname pid < 2 ^ 64 := by
  intro putUrl nonce ts c ns fname pid src sz
  refine ⟨rfl, ?_⟩
  unfold contentIdNat sipHash13
  exact Nat.mod_lt _ (by norm_num [two64])

/-- C2 counterexample: a `write_extracted_content` call that successfully
writes and registers one child, followed by `finish_extracted_content_write`
with outcome `Success`, sends an `UpdateTask` request whose `content_list` is
empty — the child is not in it. -/
theorem claim_C2_counterexample :
    createdIds (writeExtractedContent put0 nonceIdx 7 im0 ecPlain).1 ≠ []
      ∧ (writeExtractedContent put0 nonceIdx 7 im0 ecPlain).2 = none
      ∧ (finishExtractedContentWrite im0 (Except.ok ()) (Except.ok ())).2.map
            UpdateTaskRequest.content_list = some [] := by
  exact ⟨by decide, rfl, rfl⟩

/-- C2 amended: `finish_extracted_content_write` issues an `UpdateTask`
request that carries the task outcome, but its `content_list` is always empty;
child contents are reported separately, by the `CreateContent` requests issued
inside `write_extracted_content`. -/
theorem claim_C2_amended :
    ∀ (im : BeginExtractedContentIngest) (updateResult : Except String Unit),
      (finishExtractedContentWrite im (Except.ok ()) updateResult).2
        = some ⟨im.executor_id, im.task_id, taskOutcomeCode im.task_outcome, []⟩ := by
  intro im updateResult
  rfl

/-- C3 counterexample: replaying `add_texts` with identical inputs is not
idempotent — the nonce drawn inside `write_content` enters the id hash, so two
runs on the same namespace and content that draw different nonces register
contents with different ids, and the second run creates a new record. -/
theorem claim_C3_counterexample :
    createdIds (addTexts put0 nonceA 7 "ns1" [childPlain] 0)
      ≠ createdIds (addTexts put0 nonceB 7 "ns1" [childPlain] 0) := by
  decide

/-- C3 amended: only the ingest path with a caller-provided file name is
replay-idempotent: two `upload_file` runs with identical inputs derive the
same `ContentMetadata.id` whatever nonces and timestamps they draw, whereas an
`add_texts` run registers its text under an id derived from the run's fresh
nonce. -/
theorem claim_C3_amended :
    ∀ (putUrl : String → List Nat → String) (n1 n2 : String) (ts1 ts2 : Nat)
      (ns : String) (data : List Nat) (name : String) (nonces : Nat → String)
      (ts : Nat) (c : Content),
      (uploadFile putUrl n1 ts1 ns data name).1.id
          = (uploadFile putUrl n2 ts2 ns data name).1.id
        ∧ createdIds (addTexts putUrl nonces ts ns [c] 0)
          = [contentId ns (nonces 0) none] := by
  intro putUrl n1 n2 ts1 ts2 ns data name nonces ts c
  exact ⟨rfl, rfl⟩

/-- C4 counterexample: when the `UpdateTask` RPC inside
`finish_extracted_content_write` fails, the function still returns success —
the error is logged and swallowed, not surfaced. -/
theorem claim_C4_counterexample :
    (finishExtractedContentWrite im0 (Except.ok ())
        (Except.error "unable to update task")).1 = Except.ok () := rfl

/-- C4 amended: `finish_extracted_content_write` does not surface a failure of
the `UpdateTask` RPC: it logs the error and returns `Ok(())`; only the failure
to acquire the coordinator client propagates to the caller. -/
theorem claim_C4_amended :
    ∀ (im : BeginExtractedContentIngest) (e : String) (r : Except String Unit),
      (finishExtractedContentWrite im (Except.ok ()) (Except.error e)).1
          = Except.ok ()
        ∧ (finishExtractedContentWrite im (Except.error e) r).1
          = Except.error e := by
  intro im e r
  exact ⟨rfl, rfl⟩

/-- C5 counterexample: a successful `write_extracted_content` run whose single
child carries one `Metadata` feature whose name is absent from
`output_to_index_table_mapping` inserts no row into the metadata index, even
though the child itself is registered — the mapping lookup gates `Metadata`
features too. -/
theorem claim_C5_counterexample :
    metadataRows (writeExtractedContent put0 nonceIdx 7 imNoMap ecMeta).1 = []
      ∧ (writeExtractedContent put0 nonceIdx 7 imNoMap ecMeta).2 = none
      ∧ createdIds (writeExtractedContent put0 nonceIdx 7 imNoMap ecMeta).1 ≠ [] := by
  exact ⟨rfl, rfl, by decide⟩

/-- C5 amended: for every extracted child processed without error, the rows
inserted into the metadata index are exactly one row per `Metadata` feature
whose name appears in `output_to_index_table_mapping` (each carrying the
child's content id and its parent id); a feature whose name is absent from the
mapping is skipped entirely. -/
theorem claim_C5_amended :
    ∀ (putUrl : String → List Nat → String) (nonce : String) (ts : Nat)
      (im : BeginExtractedContentIngest) (c : Content),
      (processChild putUrl nonce ts im c).2.2 = none →
      metadataRows (processChild putUrl nonce ts im c).1
          = expectedMetadataRows im.output_to_index_table_mapping
              im.extraction_policy im.ns (processChild putUrl nonce ts im c).2.1
              c.features
        ∧ (processChild putUrl nonce ts im c).2.1.parent_id
          = im.parent_content_id := by
  intro putUrl nonce ts im c h
  simp only [processChild] at h ⊢
  cases herr : (processFeatures im.output_to_index_table_mapping im.extraction_policy
      im.ns (writeContent putUrl nonce ts im.ns c none (some im.parent_content_id)
        im.extraction_policy c.bytes.length).1 c.features []).2.2 with
  | some e =>
    simp only [herr] at h
    exact Option.noConfusion h
  | none =>
    simp only [herr]
    refine ⟨?_, rfl⟩
    have hflush : metadataRows
        ((processFeatures im.output_to_index_table_mapping im.extraction_policy
            im.ns (writeContent putUrl nonce ts im.ns c none
              (some im.parent_content_id) im.extraction_policy
              c.bytes.length).1 c.features []).1.map
          (fun te => Event.addEmbedding te.1 te.2)) = [] := by
      simp [metadataRows, List.filterMap_map]
    have hrows := processFeatures_rows im.output_to_index_table_mapping
      im.extraction_policy im.ns
      (writeContent putUrl nonce ts im.ns c none (some im.parent_content_id)
        im.extraction_policy c.bytes.length).1 c.features [] herr
    rw [writeContent_event, metadataRows_append, metadataRows_cons_blob, hrows,
      hflush, List.append_nil]

/-- C5 witness: a child with a mapped and an unmapped `Metadata` feature
processes without error and the inserted rows match the amended description. -/
theorem claim_C5_witness :
    (processChild put0 "n" 7 imMapped childTwoMeta).2.2 = none
      ∧ (metadataRows (processChild put0 "n" 7 imMapped childTwoMeta).1
            = expectedMetadataRows imMapped.output_to_index_table_mapping
                imMapped.extraction_policy imMapped.ns
                (processChild put0 "n" 7 imMapped childTwoMeta).2.1
                childTwoMeta.features
          ∧ (processChild put0 "n" 7 imMapped childTwoMeta).2.1.parent_id
            = imMapped.parent_content_id) :=
  ⟨rfl, claim_C5_amended put0 "n" 7 imMapped childTwoMeta rfl⟩

/-- C6 counterexample: the nonce `nanoid!()` draws when no file name is
provided comes from a space of `64 ^ 21 = 2 ^ 126` values — strictly fewer
than the `2 ^ 128` the claim requires. -/
theorem claim_C6_counterexample :
    nanoidSpace = 64 ^ 21 ∧ nanoidSpace < 2 ^ 128 := by
  exact ⟨by decide, by decide⟩

/-- C6 amended: when no file name is provided, a random nonce drawn from a
space of `64 ^ 21 = 2 ^ 126` values (126 bits of entropy) is generated before
the id hash is computed — the id is the digest over the nonce — and the nonce
is persisted as the content's `file_name`. -/
theorem claim_C6_amended :
    ∀ (putUrl : String → List Nat → String) (nonce : String) (ts : Nat)
      (ns : String) (c : Content) (pid : Option String) (src : String) (sz : Nat),
      (writeContent putUrl nonce ts ns c none pid src sz).1.file_name = nonce
        ∧ (writeContent putUrl nonce ts ns c none pid src sz).1.id
          = toHexString (contentIdNat ns nonce pid)
        ∧ nanoidSpace = 2 ^ 126 := by
  intro putUrl nonce ts ns c pid src sz
  exact ⟨rfl, rfl, by decide⟩

/-- C7 counterexample: with two children each carrying one mapped embedding
feature, the trace of a successful `write_extracted_content` interleaves the
embedding flushes with the children — the first child's buffer is flushed
(`add_embedding` at position 1) before the second child is processed (blob
write at position 2), refuting that buffers are flushed only after all
children have been processed.  The `CreateContent` requests do come last. -/
theorem claim_C7_counterexample :
    (writeExtractedContent put0 nonceIdx 7 im0 ecTwoEmb).1.map Event.kind
      = [EventKind.blobPutK, EventKind.addEmbeddingK, EventKind.blobPutK,
         EventKind.addEmbeddingK, EventKind.createContentK,
         EventKind.createContentK] := by
  decide

/-- C7 amended: within a single `write_extracted_content` call, child contents
are processed in input order and each child's buffered embeddings are flushed
(grouped by index table) at the end of that child's own processing; after all
children have been processed, one `CreateContent` per child is submitted, all
of them after every blob, embedding and metadata write. -/
theorem claim_C7_amended :
    ∀ (putUrl : String → List Nat → String) (nonces : Nat → String) (ts : Nat)
      (im : BeginExtractedContentIngest) (ec : ExtractedContent),
      (writeExtractedContent putUrl nonces ts im ec).2 = none →
      ∃ metas : List ContentMetadata,
        metas.length = ec.content_list.length
          ∧ (writeExtractedContent putUrl nonces ts im ec).1
            = flattenEvents (perChildTraces putUrl nonces ts im ec.content_list 0)
                ++ metas.map Event.createContent
          ∧ ∀ e ∈ flattenEvents (perChildTraces putUrl nonces ts im ec.content_list 0),
              Event.kind e ≠ EventKind.createContentK := by
  intro putUrl nonces ts im ec h
  simp only [writeExtractedContent] at h ⊢
  cases herr : (processChildren putUrl nonces ts im ec.content_list 0).2.2 with
  | some e =>
    simp only [herr] at h
    exact Option.noConfusion h
  | none =>
    simp only [herr]
    obtain ⟨h1, h2⟩ :=
      processChildren_success putUrl nonces ts im ec.content_list 0 herr
    exact ⟨(processChildren putUrl nonces ts im ec.content_list 0).2.1, h2,
      by rw [h1], perChildTraces_no_create putUrl nonces ts im ec.content_list 0⟩

/-- C7 witness: the two-children embedding scenario succeeds and satisfies the
amended decomposition. -/
theorem claim_C7_witness :
    (writeExtractedContent put0 nonceIdx 7 im0 ecTwoEmb).2 = none
      ∧ ∃ metas : List ContentMetadata,
          metas.length = ecTwoEmb.content_list.length
            ∧ (writeExtractedContent put0 nonceIdx 7 im0 ecTwoEmb).1
              = flattenEvents (perChildTraces put0 nonceIdx 7 im0
                    ecTwoEmb.content_list 0)
                  ++ metas.map Event.createContent
            ∧ ∀ e ∈ flattenEvents (perChildTraces put0 nonceIdx 7 im0
                  ecTwoEmb.content_list 0),
                Event.kind e ≠ EventKind.createContentK :=
  ⟨rfl, claim_C7_amended put0 nonceIdx 7 im0 ecTwoEmb rfl⟩

/-- C8: `upload_file(namespace, bytes, name)` infers the MIME type from the
extension of `name` (falling back to `application/octet-stream` when the
extension is absent or unknown) and produces a `ContentMetadata` with
`file_name = name`, `source = "ingestion"`, empty `parent_id` and `size_bytes`
equal to the byte length; concretely, `"a.txt"` with the five bytes of
`"hello"` yields mime `"text/plain"` and `size_bytes = 5`, and a name without
extension yields `"application/octet-stream"`. -/
theorem claim_C8_upload_file :
    ∀ (putUrl : String → List Nat → String) (nonce : String) (ts : Nat)
      (ns : String) (data : List Nat) (name : String),
      (uploadFile putUrl nonce ts ns data name).1.mime
          = mimeFromExt ((rustExtension name).getD "")
        ∧ (uploadFile putUrl nonce ts ns data name).1.file_name = name
        ∧ (uploadFile putUrl nonce ts ns data name).1.source = "ingestion"
        ∧ (uploadFile putUrl nonce ts ns data name).1.parent_id = ""
        ∧ (uploadFile putUrl nonce ts ns data name).1.size_bytes = data.length
        ∧ (uploadFile putUrl nonce ts "ns1" [104, 101, 108, 108, 111] "a.txt").1.mime
          = "text/plain"
        ∧ (uploadFile putUrl nonce ts "ns1" [104, 101, 108, 108, 111] "a.txt").1.size_bytes
          = 5
        ∧ (uploadFile putUrl nonce ts ns data "README").1.mime
          = "application/octet-stream" := by
  intro putUrl nonce ts ns data name
  exact ⟨rfl, rfl, rfl, rfl, rfl, rfl, rfl, rfl⟩

/-- C9 counterexample: blob storage keys are not unique across contents — the
same file name uploaded into two different namespaces produces two distinct
persisted contents (different ids, since the namespace enters the id hash)
whose blob writes use the identical key. -/
theorem claim_C9_counterexample :
    (uploadFile put0 "n" 7 "ns1" [104] "a.txt").1.id
        ≠ (uploadFile put0 "n" 7 "ns2" [104] "a.txt").1.id
      ∧ blobKeys (uploadFile put0 "n" 7 "ns1" [104] "a.txt").2
        = blobKeys (uploadFile put0 "n" 7 "ns2" [104] "a.txt").2 := by
  exact ⟨by decide, by decide⟩

/-- C9 amended: for every content written by `write_content`, the key passed
to the blob store `put` is exactly the content's `file_name` (the namespace is
not part of the key); the key is unique only as far as file names are — two
contents with the same file name in different namespaces share a key. -/
theorem claim_C9_amended :
    ∀ (putUrl : String → List Nat → String) (nonce : String) (ts : Nat)
      (ns : String) (c : Content) (fn pid : Option String) (src : String)
      (sz : Nat),
      (writeContent putUrl nonce ts ns c fn pid src sz).2
          = Event.blobPut
              ((writeContent putUrl nonce ts ns c fn pid src sz).1.file_name)
              c.bytes
        ∧ (writeContent putUrl nonce ts ns c fn pid src sz).1.file_name
          = fn.getD nonce := by
  intro putUrl nonce ts ns c fn pid src sz
  exact ⟨rfl, rfl⟩

/-- C10: the state-machine command payload type consists of exactly the
eighteen commands the spec enumerates, with the fields the spec lists:
reading source commands as spec commands and back are mutually inverse
field-preserving translations, every source command's name is one of the
eighteen spec names, and those names are pairwise distinct. -/
theorem claim_C10_command_set :
    (∀ p : RequestPayload, requestOfSpec (specOfRequest p) = p)
      ∧ (∀ c : SpecCommand, specOfRequest (requestOfSpec c) = c)
      ∧ (∀ p : RequestPayload, (specOfRequest p).cmdName ∈ specCommandNames)
      ∧ specCommandNames.length = 18
      ∧ specCommandNames.Nodup := by
  refine ⟨fun p => ?_, fun c => ?_, fun p => ?_, by decide, by decide⟩
  · cases p <;> rfl
  · cases c <;> rfl
  · cases p <;> simp only [specOfRequest, SpecCommand.cmdName] <;> decide

end Indexify
